import Mathlib

/-!
Verification development for the Form Recognizer long-running-operation client
(formRecognizerClient.ts). JavaScript strings are embedded as `List Char`,
byte payloads as `List Nat`, thrown exceptions as `Except`, and outbound
service calls as request values, together with a call counter where a claim
speaks about the number of calls.
-/

namespace FormRecognizer

/-- Embedding of JavaScript `String.prototype.lastIndexOf(c)` for a single
character: the index of the last occurrence of `c`, or `-1` when `c` does not
occur (used by `processOperationLocation`, source line 863). -/
def lastIndexOf : List Char → Char → Int
  | [], _ => -1
  | x :: xs, c =>
    if 0 ≤ lastIndexOf xs c then lastIndexOf xs c + 1
    else if x = c then 0
    else -1

/-- Error raised by `processOperationLocation` when the service response lacks
a usable `operationLocation` (the `InitiationError` of the spec taxonomy);
source line 861 throws `new Error(...)`. -/
inductive InitiationError
  | missingOperationLocation
  deriving DecidableEq

/-- Embedding of `processOperationLocation` (source lines 859-866). The
`operationLocation` field of the response is an optional string; JavaScript
`!operationLocation` is true both for `undefined` and for the empty string.
On success the code computes `operationLocation.substring(lastSlashIndex + 1)`,
i.e. drops the first `lastSlashIndex + 1` characters. -/
def processOperationLocation : Option (List Char) → Except InitiationError (List Char)
  | none => Except.error InitiationError.missingOperationLocation
  | some l =>
    if l = [] then Except.error InitiationError.missingOperationLocation
    else Except.ok (l.drop (lastIndexOf l '/' + 1).toNat)

/-- Reference definition following the spec words: the handle is "the
substring after the last separator", i.e. the longest suffix of the
operation-location string that contains no '/' character. -/
def afterLastSlash (l : List Char) : List Char :=
  (l.reverse.takeWhile (fun a => a != '/')).reverse

/-- Modelled from the spec: the poller's first poll (recognitionPoller /
contentPoller modules, not under src/) sequences initiation before the first
result fetch — "initiation and the first fetch are sequenced, never
concurrent" (spec section 4.3). When initiation fails no fetch is performed; the
second component counts result fetches. -/
def firstPoll {α : Type} (resp : Option (List Char)) (fetch : List Char → α) :
    Except InitiationError (List Char × α) × Nat :=
  match processOperationLocation resp with
  | Except.error e => (Except.error e, 0)
  | Except.ok handle => (Except.ok (handle, fetch handle), 1)

/-- Local-misuse error: `beginRecognizeCustomForms` /
`beginRecognizeCustomFormsFromUrl` throw `new RangeError("Invalid model id")`
(source lines 463-465 and 533-535); this realizes the spec taxonomy's
`InvalidOperationError` ("missing required identifier ... before initiation"). -/
inductive FrError
  | invalidModelId
  deriving DecidableEq

/-- Outcome of a begin-operation call: the result or the thrown error,
together with the number of network calls made. -/
structure BeginOutcome (α : Type) where
  result : Except FrError α
  networkCalls : Nat

/-- Embedding of the guard of `beginRecognizeCustomForms` (source lines
458-465): `if (!modelId) throw new RangeError("Invalid model id")` runs before
the poller is constructed and before any network call; `proceed` stands for
the rest of the method. -/
def beginRecognizeCustomForms {α : Type} (modelId : List Char)
    (proceed : Unit → BeginOutcome α) : BeginOutcome α :=
  if modelId = [] then { result := Except.error FrError.invalidModelId, networkCalls := 0 }
  else proceed ()

/-- Embedding of the guard of `beginRecognizeCustomFormsFromUrl` (source lines
528-535), identical to the byte-payload variant. -/
def beginRecognizeCustomFormsFromUrl {α : Type} (modelId : List Char)
    (proceed : Unit → BeginOutcome α) : BeginOutcome α :=
  if modelId = [] then { result := Except.error FrError.invalidModelId, networkCalls := 0 }
  else proceed ()

/-- The enumerated content types of `FormContentType` (common.ts union of the
four string literals). -/
inductive FormContentType
  | pdf
  | jpeg
  | png
  | tiff
  deriving DecidableEq

/-- The string value of each `FormContentType` literal. -/
def contentTypeString : FormContentType → List Char
  | FormContentType.pdf => ("application/pdf").toList
  | FormContentType.jpeg => ("image/jpeg").toList
  | FormContentType.png => ("image/png").toList
  | FormContentType.tiff => ("image/tiff").toList

/-- A form source: either a byte payload or a URL string. -/
inductive FormSource
  | bytes (data : List Nat)
  | url (address : List Char)
  deriving DecidableEq

/-- Modelled from the spec: the magic-number sniffer inside `getContentType`
(common.ts, not under src/) — "given a byte prefix, returns one of
{pdf, jpeg, png, tiff} or unknown" (spec section 6), keying on the documents'
standard leading bytes. -/
def sniffMagic (data : List Nat) : Option FormContentType :=
  if data.take 4 = [0x25, 0x50, 0x44, 0x46] then some FormContentType.pdf
  else if data.take 2 = [0xFF, 0xD8] then some FormContentType.jpeg
  else if data.take 4 = [0x89, 0x50, 0x4E, 0x47] then some FormContentType.png
  else if data.take 4 = [0x49, 0x49, 0x2A, 0x00] then some FormContentType.tiff
  else if data.take 4 = [0x4D, 0x4D, 0x00, 0x2A] then some FormContentType.tiff
  else none

/-- Modelled from the spec: `getContentType` from common.ts (not under src/):
sniffing inspects the leading bytes of byte payloads only; for a URL string
source "content-type detection is skipped" (spec section 4.1). The second
component records whether leading bytes were inspected. -/
def getContentType : FormSource → Option FormContentType × Bool
  | FormSource.url _ => (none, false)
  | FormSource.bytes data => (sniffMagic data, true)

/-- Embedding of the content-type resolution expression — source line 950
`contentType ? contentType : await getContentType(requestBody)` and source
line 476 `finalOptions.contentType ?? (await getContentType(requestBody))`:
both short-circuit, so the sniffer is not consulted when an explicit content
type is present (every `FormContentType` string is truthy). -/
def resolveContentType (explicit : Option FormContentType) (body : FormSource) :
    Option FormContentType × Bool :=
  match explicit with
  | some t => (some t, false)
  | none => getContentType body

/-- How the payload is transmitted: raw binary body, or wrapped as the
`fileStream` source of a JSON body. -/
inductive RequestPayloadKind
  | binary (payload : FormSource)
  | fileStream (payload : FormSource)
  deriving DecidableEq

/-- The outbound analyze request built by the layout path. -/
structure AnalyzeRequest where
  contentType : List Char
  body : RequestPayloadKind
  bytesInspected : Bool
  deriving DecidableEq

/-- Embedding of `recognizeLayoutInternal` (source lines 939-973): resolve the
content type, then either send the payload as a binary body under the resolved
content type, or — when no content type was resolved — send it as a
`fileStream` JSON body under "application/json". -/
def recognizeLayoutInternal (body : FormSource) (contentType : Option FormContentType) :
    AnalyzeRequest :=
  match resolveContentType contentType body with
  | (some t, sniffed) =>
    { contentType := contentTypeString t
      body := RequestPayloadKind.binary body
      bytesInspected := sniffed }
  | (none, sniffed) =>
    { contentType := ("application/json").toList
      body := RequestPayloadKind.fileStream body
      bytesInspected := sniffed }

/-- Embedding of `beginRecognizeContentFromUrl` (source lines 382-404): the
caller-supplied `contentType` option is overridden with `undefined` (source
line 399) before the poller invokes `recognizeLayoutInternal` on the URL. -/
def beginRecognizeContentFromUrlRequest (formUrl : List Char)
    (_callerContentType : Option FormContentType) : AnalyzeRequest :=
  recognizeLayoutInternal (FormSource.url formUrl) none

/-- The outbound analyze request of the custom-model path; `contentType` is
optional because the source applies a non-null assertion (`contentType!`) that
can still pass `undefined` at runtime when sniffing fails. -/
structure CustomAnalyzeRequest where
  modelId : List Char
  contentType : Option (List Char)
  body : RequestPayloadKind
  bytesInspected : Bool
  deriving DecidableEq

/-- Embedding of the `createOperation` closure of `beginRecognizeCustomForms`
(source lines 474-485): resolve the content type with the `??` operator, then
call `analyzeWithCustomModel(modelId, contentType!, requestBody, ...)` with
the payload as a binary body. -/
def customFormsCreateOperation (modelId : List Char) (form : FormSource)
    (explicitContentType : Option FormContentType) : CustomAnalyzeRequest :=
  match resolveContentType explicitContentType form with
  | (resolved, sniffed) =>
    { modelId := modelId
      contentType := Option.map contentTypeString resolved
      body := RequestPayloadKind.binary form
      bytesInspected := sniffed }

/-- Caller options carrying the `contentType` option, used to show that the
URL-based creation closures ignore it. -/
structure RequestOptionsModel where
  contentType : Option FormContentType
  deriving DecidableEq

/-- Embedding of the `createOperation` closure of
`beginRecognizeCustomFormsFromUrl` (source lines 544-553): it calls
`analyzeWithCustomModel(modelId, "application/json", { fileStream: { source:
formUrl }, ... })` directly, never consulting the sniffer or the caller's
`contentType` option. -/
def customFormsFromUrlCreateOperation (modelId : List Char) (formUrl : List Char)
    (_finalOptions : RequestOptionsModel) : CustomAnalyzeRequest :=
  { modelId := modelId
    contentType := some (("application/json").toList)
    body := RequestPayloadKind.fileStream (FormSource.url formUrl)
    bytesInspected := false }

/-- Embedding of the `createOperation` closure of
`beginRecognizeReceiptsFromUrl` (source lines 817-825): it calls
`analyzeReceiptAsync("application/json", { fileStream: { source: receiptUrl },
... })` directly. -/
def receiptsFromUrlCreateOperation (receiptUrl : List Char)
    (_finalOptions : RequestOptionsModel) : AnalyzeRequest :=
  { contentType := ("application/json").toList
    body := RequestPayloadKind.fileStream (FormSource.url receiptUrl)
    bytesInspected := false }

/-- Embedding of the `createOperation` closure of
`beginRecognizeBusinessCardsFromUrl` (source lines 682-690): it calls
`analyzeBusinessCardAsync("application/json", { fileStream: { source:
businessCardUrl }, ... })` directly. -/
def businessCardsFromUrlCreateOperation (businessCardUrl : List Char)
    (_finalOptions : RequestOptionsModel) : AnalyzeRequest :=
  { contentType := ("application/json").toList
    body := RequestPayloadKind.fileStream (FormSource.url businessCardUrl)
    bytesInspected := false }

/-- A result-fetch service call of the custom-form path: which model id and
result id are sent to `getAnalyzeFormResult`. -/
structure FormFetchCall where
  modelId : List Char
  resultId : List Char
  deriving DecidableEq

/-- Embedding of the `getResult` callback of `beginRecognizeCustomForms`
(source lines 486-495). The closure's environment holds the construction-time
model id (`capturedModelId`); the lambda's own third parameter shadows it, and
the service call `getAnalyzeFormResult(modelId!, resultId, ...)` uses the
parameter. -/
def customFormsGetResult (_capturedModelId : List Char) (resultId : List Char)
    (callModelId : List Char) : FormFetchCall :=
  { modelId := callModelId, resultId := resultId }

/-- Embedding of the `getResult` callback of
`beginRecognizeCustomFormsFromUrl` (source lines 554-563), identical in shape
to the byte-payload variant. -/
def customFormsFromUrlGetResult (_capturedModelId : List Char) (resultId : List Char)
    (callModelId : List Char) : FormFetchCall :=
  { modelId := callModelId, resultId := resultId }

/-- Embedding of `getRecognizedContent` (source lines 410-433): it performs
exactly one call to `client.getAnalyzeLayoutResult`; on success the raw
response goes through `toRecognizeContentResultResponse` (transforms.ts,
abstracted as the `transform` argument); the catch block records the failure
on the span and rethrows the same exception. The second component counts the
underlying service calls. -/
def getRecognizedContent {E R C : Type} (transform : R → C)
    (serviceOutcome : Except E R) : Except E C × Nat :=
  match serviceOutcome with
  | Except.ok r => (Except.ok (transform r), 1)
  | Except.error e => (Except.error e, 1)

/-- A credential is either a token credential or a static key credential. -/
inductive CredentialModel
  | token (cred : List Char)
  | key (cred : List Char)
  deriving DecidableEq

/-- The authentication policy installed in the pipeline. -/
inductive AuthPolicyModel
  | bearerToken (cred : List Char) (scope : List Char)
  | keyHeader (cred : List Char)
  deriving DecidableEq

/-- Modelled from the spec: `DEFAULT_COGNITIVE_SCOPE` from constants.ts (not
under src/), the fixed cognitive-services scope string the bearer-token policy
is keyed to. -/
def DEFAULT_COGNITIVE_SCOPE : List Char :=
  ("https://cognitiveservices.azure.com/.default").toList

/-- Embedding of `isTokenCredential` as used on source line 295. -/
def isTokenCredential : CredentialModel → Bool
  | CredentialModel.token _ => true
  | CredentialModel.key _ => false

/-- The raw credential value carried by either kind of credential. -/
def credentialValue : CredentialModel → List Char
  | CredentialModel.token c => c
  | CredentialModel.key c => c

/-- The observable configuration produced by the `FormRecognizerClient`
constructor: the stored endpoint, the selected auth policy, and the endpoint
handed to the generated downstream client (`new GeneratedClient(endpointUrl,
pipeline)`, source line 312, independent of the credential kind). -/
structure FormRecognizerClientModel where
  endpointUrl : List Char
  authPolicy : AuthPolicyModel
  generatedClientEndpoint : List Char
  deriving DecidableEq

/-- Embedding of the `FormRecognizerClient` constructor (source lines
277-313): `isTokenCredential(credential)` selects between
`bearerTokenAuthenticationPolicy(credential, DEFAULT_COGNITIVE_SCOPE)` and
`createFormRecognizerAzureKeyCredentialPolicy(credential)`; either way the
same `GeneratedClient` is constructed on the endpoint. -/
def mkFormRecognizerClient (endpointUrl : List Char) (credential : CredentialModel) :
    FormRecognizerClientModel :=
  { endpointUrl := endpointUrl
    authPolicy :=
      if isTokenCredential credential then
        AuthPolicyModel.bearerToken (credentialValue credential) DEFAULT_COGNITIVE_SCOPE
      else
        AuthPolicyModel.keyHeader (credentialValue credential)
    generatedClientEndpoint := endpointUrl }

/-- Span bookkeeping observed after a wrapped handler runs: whether
`span.setStatus` was called and whether `span.end` was called. -/
structure SpanRecord where
  statusSet : Bool
  ended : Bool
  deriving DecidableEq

/-- Embedding of the `span` combinator of `makeSpanner` (source lines
911-932): `createSpan` produces updated options (abstracted as
`updateOptions`); the handler runs on them inside try/catch/finally — the
catch records the failure on the span and rethrows the same exception, the
finally ends the span in both cases. -/
def spannerSpan {Options Args Result Exn : Type}
    (updateOptions : Options → Options) (options : Options)
    (handler : Options → Args → Except Exn Result) (args : Args) :
    Except Exn Result × SpanRecord :=
  match handler (updateOptions options) args with
  | Except.ok v => (Except.ok v, { statusSet := false, ended := true })
  | Except.error e => (Except.error e, { statusSet := true, ended := true })

/-- Status of a long-running operation (spec section 4.3). -/
inductive FrStatus
  | notStarted
  | running
  | succeeded
  | failed
  | canceled
  deriving DecidableEq

/-- Whether a status is terminal. -/
def isTerminal : FrStatus → Bool
  | FrStatus.succeeded => true
  | FrStatus.failed => true
  | FrStatus.canceled => true
  | _ => false

/-- Poller state: the current status and whether the first status check has
already happened. -/
structure PollerState where
  status : FrStatus
  firstCheckDone : Bool
  deriving DecidableEq

/-- Modelled from the spec: one poll of the poller state machine
(recognitionPoller / core-lro, not under src/). A poll of an already-terminal
poller is a no-op (spec section 4.3); otherwise the observed status is stored
and the progress callback fires once on a status change, except that it is
never invoked for an operation already terminal at the very first status
check (spec sections 4.3, 4.4, 8). The second component counts progress
callback invocations. -/
def pollOnce (st : PollerState) (observed : FrStatus) : PollerState × Nat :=
  if isTerminal st.status then (st, 0)
  else
    ({ status := observed, firstCheckDone := true },
      if observed = st.status then 0
      else if !st.firstCheckDone && isTerminal observed then 0
      else 1)

/-- Total number of progress callback invocations over a sequence of observed
statuses. -/
def runPolls : PollerState → List FrStatus → Nat
  | _, [] => 0
  | st, s :: rest => (pollOnce st s).2 + runPolls (pollOnce st s).1 rest

/-- The state of a freshly constructed poller. -/
def freshPollerState : PollerState :=
  { status := FrStatus.notStarted, firstCheckDone := false }

/-- lastIndexOf never returns a value below -1. -/
theorem lastIndexOf_ge_neg_one (l : List Char) (c : Char) : -1 ≤ lastIndexOf l c := by
  induction l with
  | nil => simp [lastIndexOf]
  | cons x xs ih =>
    simp only [lastIndexOf]
    split
    · omega
    · split
      · omega
      · omega

/-- lastIndexOf returns -1 exactly when the character does not occur. -/
theorem lastIndexOf_eq_neg_one_iff (l : List Char) (c : Char) :
    lastIndexOf l c = -1 ↔ c ∉ l := by
  induction l with
  | nil => simp [lastIndexOf]
  | cons x xs ih =>
    simp only [lastIndexOf, List.mem_cons]
    by_cases h : 0 ≤ lastIndexOf xs c
    · have hc : c ∈ xs := by
        by_contra hn
        have := ih.mpr hn
        omega
      rw [if_pos h]
      constructor
      · intro habs
        exact absurd habs (by omega)
      · intro habs
        exact absurd (Or.inr hc) habs
    · have hxs : lastIndexOf xs c = -1 := by
        have := lastIndexOf_ge_neg_one xs c
        omega
      have hcn : c ∉ xs := ih.mp hxs
      rw [if_neg h]
      by_cases hx : x = c
      · rw [if_pos hx]
        constructor
        · intro habs
          exact absurd habs (by omega)
        · intro habs
          exact absurd (Or.inl hx.symm) habs
      · rw [if_neg hx]
        constructor
        · intro _ hor
          rcases hor with h1 | h2
          · exact hx h1.symm
          · exact hcn h2
        · intro _
          rfl

/-- takeWhile for a non-membership character stops inside the left part of an
append as soon as the character occurs there. -/
theorem takeWhile_ne_append_of_mem (c : Char) (ys zs : List Char) (h : c ∈ ys) :
    (ys ++ zs).takeWhile (fun a => a != c) = ys.takeWhile (fun a => a != c) := by
  induction ys with
  | nil => cases h
  | cons y ys ih =>
    by_cases hy : y = c
    · subst hy
      simp [List.takeWhile_cons]
    · have hmem : c ∈ ys := by
        rcases List.mem_cons.mp h with h1 | h2
        · exact absurd h1.symm hy
        · exact h2
      have hp : (y != c) = true := bne_iff_ne.mpr hy
      simp [List.takeWhile_cons, hp, ih hmem]

/-- takeWhile for a character that does not occur keeps the whole list. -/
theorem takeWhile_ne_eq_self_of_not_mem (c : Char) (ys : List Char) (h : c ∉ ys) :
    ys.takeWhile (fun a => a != c) = ys := by
  induction ys with
  | nil => rfl
  | cons y ys ih =>
    have hy : y ≠ c := fun he => h (List.mem_cons.mpr (Or.inl he.symm))
    have hc2 : c ∉ ys := fun hm => h (List.mem_cons.mpr (Or.inr hm))
    have hp : (y != c) = true := bne_iff_ne.mpr hy
    simp [List.takeWhile_cons, hp, ih hc2]

/-- takeWhile up to the first occurrence of the character keeps exactly the
character-free part before it. -/
theorem takeWhile_ne_append_cons (c : Char) (ys zs : List Char) (h : c ∉ ys) :
    (ys ++ c :: zs).takeWhile (fun a => a != c) = ys := by
  induction ys with
  | nil => simp [List.takeWhile_cons]
  | cons y ys ih =>
    have hy : y ≠ c := fun he => h (List.mem_cons.mpr (Or.inl he.symm))
    have hc2 : c ∉ ys := fun hm => h (List.mem_cons.mpr (Or.inr hm))
    have hp : (y != c) = true := bne_iff_ne.mpr hy
    simp [List.takeWhile_cons, hp, ih hc2]

/-- The substring after the last occurrence of a character, computed the way
the source does (lastIndexOf then substring), equals the longest suffix free
of that character. -/
theorem drop_lastIndexOf (l : List Char) (c : Char) :
    l.drop (lastIndexOf l c + 1).toNat = (l.reverse.takeWhile (fun a => a != c)).reverse := by
  induction l with
  | nil => rfl
  | cons x xs ih =>
    simp only [lastIndexOf]
    by_cases h : 0 ≤ lastIndexOf xs c
    · have hc : c ∈ xs := by
        by_contra hn
        have := (lastIndexOf_eq_neg_one_iff xs c).mpr hn
        omega
      rw [if_pos h]
      have h2 : ((lastIndexOf xs c + 1) + 1).toNat = (lastIndexOf xs c + 1).toNat + 1 := by
        omega
      rw [h2, List.drop_succ_cons, ih]
      have hcr : c ∈ xs.reverse := List.mem_reverse.mpr hc
      rw [List.reverse_cons, takeWhile_ne_append_of_mem c xs.reverse [x] hcr]
    · have hxs : lastIndexOf xs c = -1 := by
        have := lastIndexOf_ge_neg_one xs c
        omega
      have hcn : c ∉ xs := (lastIndexOf_eq_neg_one_iff xs c).mp hxs
      have hcnr : c ∉ xs.reverse := fun hm => hcn (List.mem_reverse.mp hm)
      rw [if_neg h]
      by_cases hx : x = c
      · subst hx
        rw [if_pos rfl, List.reverse_cons, takeWhile_ne_append_cons x xs.reverse [] hcnr,
          List.reverse_reverse]
        simp
      · have hnotall : c ∉ (x :: xs).reverse := by
          rw [List.reverse_cons]
          intro hm
          rcases List.mem_append.mp hm with h1 | h2
          · exact hcnr h1
          · exact hx (List.mem_singleton.mp h2).symm
        rw [if_neg hx, takeWhile_ne_eq_self_of_not_mem c _ hnotall, List.reverse_reverse]
        simp

/-- processOperationLocation on a present, non-empty operation location
returns exactly the substring after the last slash. -/
theorem processOperationLocation_some (l : List Char) (h : l ≠ []) :
    processOperationLocation (some l) = Except.ok (afterLastSlash l) := by
  simp only [processOperationLocation, if_neg h]
  rw [drop_lastIndexOf l '/']
  rfl

/-- A poller whose state is already terminal makes no further progress
callbacks over any sequence of further polls. -/
theorem runPolls_terminal (st : PollerState) (h : isTerminal st.status = true)
    (l : List FrStatus) : runPolls st l = 0 := by
  induction l with
  | nil => rfl
  | cons s rest ih =>
    simp only [runPolls, pollOnce, if_pos h]
    simpa using ih

/-- C1: For every service response to an initiation request, if the
operation-location field is absent (undefined or empty) then initiation fails
with the initiation error and zero result fetches are performed; otherwise the
operation handle is exactly the substring of the operation-location string
after its last '/' separator (its longest slash-free suffix), and that handle
is what the single fetch receives. -/
theorem c1_initiation_error_or_handle_after_last_slash {α : Type}
    (fetch : List Char → α) (resp : Option (List Char)) :
    ((resp = none ∨ resp = some []) →
      firstPoll resp fetch = (Except.error InitiationError.missingOperationLocation, 0)) ∧
    (∀ l, resp = some l → l ≠ [] →
      firstPoll resp fetch
        = (Except.ok (afterLastSlash l, fetch (afterLastSlash l)), 1)) := by
  constructor
  · intro h
    rcases h with h | h <;> subst h <;> rfl
  · intro l hresp hne
    subst hresp
    simp only [firstPoll, processOperationLocation_some l hne]

/-- Witness for C1: a location ending in "/b" yields handle "b" with one
fetch; an absent location yields the initiation error with zero fetches. -/
theorem c1_witness :
    firstPoll (some ['a', '/', 'b']) (fun l : List Char => l.length)
        = (Except.ok (['b'], 1), 1)
      ∧ firstPoll (none : Option (List Char)) (fun l : List Char => l.length)
        = (Except.error InitiationError.missingOperationLocation, 0) := by
  have h1 := (c1_initiation_error_or_handle_after_last_slash
      (fun l : List Char => l.length) (some ['a', '/', 'b'])).2
      ['a', '/', 'b'] rfl (by decide)
  have h2 := (c1_initiation_error_or_handle_after_last_slash
      (fun l : List Char => l.length) (none : Option (List Char))).1 (Or.inl rfl)
  refine ⟨?_, h2⟩
  rw [h1]
  rfl

/-- C2: Calling beginRecognizeCustomForms or beginRecognizeCustomFormsFromUrl
with an empty model identifier rejects with the invalid-model-id error (the
spec taxonomy's InvalidOperationError, realized as `RangeError("Invalid model
id")`) before the rest of the method runs, with zero network calls. -/
theorem c2_empty_model_id_rejects_before_network {α : Type}
    (proceed1 proceed2 : Unit → BeginOutcome α) :
    beginRecognizeCustomForms [] proceed1
        = { result := Except.error FrError.invalidModelId, networkCalls := 0 }
      ∧ beginRecognizeCustomFormsFromUrl [] proceed2
        = { result := Except.error FrError.invalidModelId, networkCalls := 0 } :=
  ⟨rfl, rfl⟩

/-- C3: For byte-payload initiation, an explicit contentType option is always
used as the request content type with the sniffer never consulted (no leading
bytes inspected), in both the layout path and the custom-forms path; only when
the option is omitted is the content type derived by sniffing the payload's
leading bytes. -/
theorem c3_explicit_content_type_beats_sniffing (t : FormContentType)
    (form : FormSource) (modelId : List Char) (data : List Nat) :
    recognizeLayoutInternal form (some t)
        = { contentType := contentTypeString t
            body := RequestPayloadKind.binary form
            bytesInspected := false }
      ∧ customFormsCreateOperation modelId form (some t)
        = { modelId := modelId
            contentType := some (contentTypeString t)
            body := RequestPayloadKind.binary form
            bytesInspected := false }
      ∧ resolveContentType none (FormSource.bytes data) = (sniffMagic data, true) :=
  ⟨rfl, rfl, rfl⟩

/-- C4: The result fetch of a custom-form recognition operation sends the
model identifier supplied by the current call (the getResult parameter); the
construction-time captured identifier is irrelevant, so fresh and resumed
pollers propagate the identifier identically. -/
theorem c4_get_result_uses_current_call_model_id
    (captured1 captured2 resultId m : List Char) :
    customFormsGetResult captured1 resultId m = { modelId := m, resultId := resultId }
      ∧ customFormsGetResult captured1 resultId m = customFormsGetResult captured2 resultId m
      ∧ customFormsFromUrlGetResult captured1 resultId m
        = { modelId := m, resultId := resultId }
      ∧ customFormsFromUrlGetResult captured1 resultId m
        = customFormsFromUrlGetResult captured2 resultId m :=
  ⟨rfl, rfl, rfl, rfl⟩

/-- C5: When the very first status check observes an already-terminal status,
the progress callback is never invoked, over the whole life of the poller. -/
theorem c5_no_progress_when_first_check_terminal (s : FrStatus)
    (rest : List FrStatus) (h : isTerminal s = true) :
    runPolls freshPollerState (s :: rest) = 0 := by
  have h1 : pollOnce freshPollerState s = ({ status := s, firstCheckDone := true }, 0) := by
    cases s
    · exact absurd h (by decide)
    · exact absurd h (by decide)
    · rfl
    · rfl
    · rfl
  simp only [runPolls, h1]
  rw [Nat.zero_add]
  exact runPolls_terminal { status := s, firstCheckDone := true } h rest

/-- Witness for C5: an operation observed Succeeded at the very first check
produces zero progress callbacks. -/
theorem c5_witness :
    isTerminal FrStatus.succeeded = true
      ∧ runPolls freshPollerState [FrStatus.succeeded, FrStatus.running] = 0 :=
  ⟨rfl, c5_no_progress_when_first_check_terminal FrStatus.succeeded [FrStatus.running] rfl⟩

/-- C6: Every URL-source initiation skips content-type sniffing (no leading
bytes inspected), ignores any caller-supplied contentType option, and sends
the URL as the request body's file source with content type
"application/json". -/
theorem c6_url_initiation_sends_json_file_source (url : List Char)
    (callerContentType : Option FormContentType) (modelId : List Char)
    (opts : RequestOptionsModel) :
    beginRecognizeContentFromUrlRequest url callerContentType
        = { contentType := ("application/json").toList
            body := RequestPayloadKind.fileStream (FormSource.url url)
            bytesInspected := false }
      ∧ customFormsFromUrlCreateOperation modelId url opts
        = { modelId := modelId
            contentType := some (("application/json").toList)
            body := RequestPayloadKind.fileStream (FormSource.url url)
            bytesInspected := false }
      ∧ receiptsFromUrlCreateOperation url opts
        = { contentType := ("application/json").toList
            body := RequestPayloadKind.fileStream (FormSource.url url)
            bytesInspected := false }
      ∧ businessCardsFromUrlCreateOperation url opts
        = { contentType := ("application/json").toList
            body := RequestPayloadKind.fileStream (FormSource.url url)
            bytesInspected := false } :=
  ⟨rfl, rfl, rfl, rfl⟩

/-- C7: Every result fetch of recognized content makes exactly one underlying
service call; a failure of that call propagates unchanged to the caller and a
success is passed through the transform — there is no local retry. -/
theorem c7_fetch_single_call_propagates_failure {E R C : Type} (transform : R → C)
    (e : E) (r : R) (serviceOutcome : Except E R) :
    (getRecognizedContent transform serviceOutcome).2 = 1
      ∧ getRecognizedContent transform (Except.error e : Except E R) = (Except.error e, 1)
      ∧ getRecognizedContent transform (Except.ok r : Except E R)
        = (Except.ok (transform r), 1) := by
  refine ⟨?_, rfl, rfl⟩
  cases serviceOutcome <;> rfl

/-- C8: The client constructor installs the bearer-token policy keyed to the
fixed cognitive-services scope for a token credential, the static key-header
policy otherwise, and the downstream generated client is the same in either
case. -/
theorem c8_auth_policy_selection (e c : List Char) (cred1 cred2 : CredentialModel) :
    mkFormRecognizerClient e (CredentialModel.token c)
        = { endpointUrl := e
            authPolicy := AuthPolicyModel.bearerToken c DEFAULT_COGNITIVE_SCOPE
            generatedClientEndpoint := e }
      ∧ mkFormRecognizerClient e (CredentialModel.key c)
        = { endpointUrl := e
            authPolicy := AuthPolicyModel.keyHeader c
            generatedClientEndpoint := e }
      ∧ (mkFormRecognizerClient e cred1).generatedClientEndpoint
        = (mkFormRecognizerClient e cred2).generatedClientEndpoint :=
  ⟨rfl, rfl, rfl⟩

/-- C9: The span wrapper produced by makeSpanner is observationally
transparent apart from span bookkeeping: the wrapped call returns exactly what
the handler returns on the tracing-updated options — the same success value or
the same rethrown exception — and the span is ended in every case. -/
theorem c9_spanner_observationally_transparent {Options Args Result Exn : Type}
    (updateOptions : Options → Options) (options : Options)
    (handler : Options → Args → Except Exn Result) (args : Args) :
    (spannerSpan updateOptions options handler args).1
        = handler (updateOptions options) args
      ∧ (spannerSpan updateOptions options handler args).2.ended = true := by
  constructor
  · cases h : handler (updateOptions options) args <;> simp [spannerSpan, h]
  · cases h : handler (updateOptions options) args <;> simp [spannerSpan, h]

/-- C10: For every non-empty operation-location string with no '/' separator,
handle extraction does not fail: lastIndexOf returns -1 and
processOperationLocation returns the entire string as the handle. -/
theorem c10_no_separator_keeps_whole_string (l : List Char) (h1 : l ≠ [])
    (h2 : '/' ∉ l) :
    lastIndexOf l '/' = -1 ∧ processOperationLocation (some l) = Except.ok l := by
  have hli : lastIndexOf l '/' = -1 := (lastIndexOf_eq_neg_one_iff l '/').mpr h2
  refine ⟨hli, ?_⟩
  rw [processOperationLocation_some l h1]
  have hrev : '/' ∉ l.reverse := fun hm => h2 (List.mem_reverse.mp hm)
  simp only [afterLastSlash]
  rw [takeWhile_ne_eq_self_of_not_mem '/' l.reverse hrev, List.reverse_reverse]

/-- Witness for C10: a slash-free location "abc" is returned whole. -/
theorem c10_witness :
    (['a', 'b', 'c'] : List Char) ≠ []
      ∧ '/' ∉ (['a', 'b', 'c'] : List Char)
      ∧ (lastIndexOf ['a', 'b', 'c'] '/' = -1
          ∧ processOperationLocation (some ['a', 'b', 'c']) = Except.ok ['a', 'b', 'c']) :=
  ⟨by decide, by decide,
    c10_no_separator_keeps_whole_string ['a', 'b', 'c'] (by decide) (by decide)⟩

end FormRecognizer
